import Mathlib

/-
Verification of the observable property value abstraction of webthing-node
(src/lib/value.ts).  The class `Value` holds a last observed value, an
optional forwarder callback invoked on `set`, an optional requestor callback
invoked on `get`, and an EventEmitter observer list notified on committed
changes.  JavaScript values are embedded as `JSVal` (undefined, null, or a
proper value); promise chains are embedded as explicit `Except` results, and
the event-loop-visible actions of a call (forwarder invocation, store
assignment, event emission, per-observer delivery) are recorded in an explicit
trace so that ordering claims become statements about lists.
-/

namespace WebThing

/-- A JavaScript value: `undef` models `undefined`, `nul` models `null`,
`val v` a proper value.  Strict equality `!==` on proper values is modelled by
decidable equality on the carrier type. -/
inductive JSVal (V : Type) where
  | undef : JSVal V
  | nul : JSVal V
  | val : V → JSVal V
deriving DecidableEq

/-- An observable action performed by a `Value` operation, in program order:
the forwarder was invoked with an argument, the requestor was invoked,
`this.lastValue = value` was executed, `this.emit('update', value)` was
executed, and a single registered observer received the update event. -/
inductive Event (V : Type) where
  | forwarderCalled : JSVal V → Event V
  | requestorCalled : Event V
  | storeAssigned : JSVal V → Event V
  | updateEmitted : JSVal V → Event V
  | notified : Nat → JSVal V → Event V
deriving DecidableEq

/-- State of a `Value` object (src/lib/value.ts, class Value): the private
field `lastValue`, the optional `valueForwarder` and `valueRequestor`
callbacks (which may fail with an error of type `Err`), the EventEmitter
listener list for the update event in registration order (observers are named
by natural numbers), and the trace of observable actions performed so far. -/
structure Value (V : Type) (Err : Type) where
  lastValue : JSVal V
  valueForwarder : Option (JSVal V → Except Err Unit)
  valueRequestor : Option (Unit → Except Err (JSVal V))
  observers : List Nat
  trace : List (Event V)

variable {V : Type} {Err : Type}

/-- The constructor: stores the initial value and the two optional callbacks;
a fresh EventEmitter has no listeners and nothing has been executed yet. -/
def Value.construct (initialValue : JSVal V)
    (valueForwarder : Option (JSVal V → Except Err Unit))
    (valueRequestor : Option (Unit → Except Err (JSVal V))) : Value V Err :=
  ⟨initialValue, valueForwarder, valueRequestor, [], []⟩

/-- EventEmitter registration `value.on('update', handler)`: appends the
observer to the listener list, so the list is in registration order. -/
def Value.addObserver (s : Value V Err) (o : Nat) : Value V Err :=
  { s with observers := s.observers ++ [o] }

/-- The guard of notifyOfExternalUpdate (src/lib/value.ts line 73):
`typeof value !== 'undefined' && value !== null && value !== this.lastValue`,
i.e. the candidate is a proper value that differs from the stored one. -/
def freshFor [DecidableEq V] (value : JSVal V) (s : Value V Err) : Prop :=
  value ≠ JSVal.undef ∧ value ≠ JSVal.nul ∧ value ≠ s.lastValue

instance [DecidableEq V] (value : JSVal V) (s : Value V Err) :
    Decidable (freshFor value s) := by
  unfold freshFor; infer_instance

/-- notifyOfExternalUpdate (src/lib/value.ts lines 72-77): if
`typeof value !== 'undefined' && value !== null && value !== this.lastValue`
then assign `this.lastValue = value` and `this.emit('update', value)`, which
delivers the event synchronously to each registered observer in registration
order; otherwise do nothing. -/
def Value.notifyOfExternalUpdate [DecidableEq V] (s : Value V Err)
    (value : JSVal V) : Value V Err :=
  if freshFor value s then
    { s with
      lastValue := value,
      trace := s.trace
        ++ [Event.storeAssigned value, Event.updateEmitted value]
        ++ s.observers.map (fun o => Event.notified o value) }
  else s

/-- set (src/lib/value.ts lines 46-50):
`Promise.resolve(this.valueForwarder ? this.valueForwarder(value) : undefined)
  .then(() => this.notifyOfExternalUpdate(value))`.
If a forwarder is configured it is invoked with the value; when it resolves
successfully the `then` continuation runs `notifyOfExternalUpdate(value)`;
when it fails the continuation is skipped and the rejection is surfaced.  With
no forwarder the resolved promise runs the continuation directly. -/
def Value.set [DecidableEq V] (s : Value V Err) (value : JSVal V) :
    Value V Err × Except Err Unit :=
  match s.valueForwarder with
  | some fwd =>
      let s1 : Value V Err :=
        { s with trace := s.trace ++ [Event.forwarderCalled value] }
      match fwd value with
      | Except.ok _ => (s1.notifyOfExternalUpdate value, Except.ok ())
      | Except.error e => (s1, Except.error e)
  | none => (s.notifyOfExternalUpdate value, Except.ok ())

/-- get (src/lib/value.ts lines 57-65): if a requestor is configured, invoke
it; on success run `notifyOfExternalUpdate(newValue)` and resolve with
`newValue` (the requestor result itself, not the stored field); on failure
surface the rejection.  With no requestor, resolve with `this.lastValue`. -/
def Value.get [DecidableEq V] (s : Value V Err) :
    Value V Err × Except Err (JSVal V) :=
  match s.valueRequestor with
  | some req =>
      let s1 : Value V Err :=
        { s with trace := s.trace ++ [Event.requestorCalled] }
      match req () with
      | Except.ok newValue =>
          (s1.notifyOfExternalUpdate newValue, Except.ok newValue)
      | Except.error e => (s1, Except.error e)
  | none => (s, Except.ok s.lastValue)

/-- Project a trace event to a per-observer delivery, if it is one. -/
def Event.notifiedOf : Event V → Option (Nat × JSVal V)
  | Event.notified o v => some (o, v)
  | _ => none

/-- Project a trace event to an emitted update event, if it is one. -/
def Event.emittedOf : Event V → Option (JSVal V)
  | Event.updateEmitted v => some v
  | _ => none

/-- All per-observer deliveries performed so far, in order. -/
def Value.notifications (s : Value V Err) : List (Nat × JSVal V) :=
  s.trace.filterMap Event.notifiedOf

/-- All update events emitted so far, in order. -/
def Value.emissions (s : Value V Err) : List (JSVal V) :=
  s.trace.filterMap Event.emittedOf

theorem filterMap_notifiedOf_map (v : JSVal V) (obs : List Nat) :
    List.filterMap (Event.notifiedOf ∘ fun o => Event.notified o v) obs
      = obs.map (fun o => ((o, v) : Nat × JSVal V)) := by
  induction obs with
  | nil => rfl
  | cons a l ih => simp [Event.notifiedOf, ih]

theorem notify_fresh [DecidableEq V] (s : Value V Err) (v : JSVal V)
    (h : freshFor v s) :
    s.notifyOfExternalUpdate v =
      { s with
        lastValue := v,
        trace := s.trace
          ++ [Event.storeAssigned v, Event.updateEmitted v]
          ++ s.observers.map (fun o => Event.notified o v) } := by
  unfold Value.notifyOfExternalUpdate
  rw [if_pos h]

theorem notify_stale [DecidableEq V] (s : Value V Err) (v : JSVal V)
    (h : ¬ freshFor v s) : s.notifyOfExternalUpdate v = s := by
  unfold Value.notifyOfExternalUpdate
  rw [if_neg h]

theorem notify_valueForwarder [DecidableEq V] (s : Value V Err) (v : JSVal V) :
    (s.notifyOfExternalUpdate v).valueForwarder = s.valueForwarder := by
  unfold Value.notifyOfExternalUpdate
  split <;> rfl

theorem notify_valueRequestor [DecidableEq V] (s : Value V Err) (v : JSVal V) :
    (s.notifyOfExternalUpdate v).valueRequestor = s.valueRequestor := by
  unfold Value.notifyOfExternalUpdate
  split <;> rfl

theorem notify_observers [DecidableEq V] (s : Value V Err) (v : JSVal V) :
    (s.notifyOfExternalUpdate v).observers = s.observers := by
  unfold Value.notifyOfExternalUpdate
  split <;> rfl

theorem notify_emissions [DecidableEq V] (s : Value V Err) (v : JSVal V) :
    (s.notifyOfExternalUpdate v).emissions =
      if freshFor v s then s.emissions ++ [v] else s.emissions := by
  by_cases h : freshFor v s
  · rw [notify_fresh s v h, if_pos h]
    simp [Value.emissions, Event.emittedOf, List.filterMap_append]
  · rw [notify_stale s v h, if_neg h]

theorem notify_notifications [DecidableEq V] (s : Value V Err) (v : JSVal V) :
    (s.notifyOfExternalUpdate v).notifications =
      if freshFor v s then
        s.notifications ++ s.observers.map (fun o => (o, v))
      else s.notifications := by
  by_cases h : freshFor v s
  · rw [notify_fresh s v h, if_pos h]
    simp [Value.notifications, Event.notifiedOf, List.filterMap_append,
      filterMap_notifiedOf_map]
  · rw [notify_stale s v h, if_neg h]

theorem notify_lastValue [DecidableEq V] (s : Value V Err) (v : JSVal V) :
    (s.notifyOfExternalUpdate v).lastValue =
      if freshFor v s then v else s.lastValue := by
  by_cases h : freshFor v s
  · rw [notify_fresh s v h, if_pos h]
  · rw [notify_stale s v h, if_neg h]

theorem set_none [DecidableEq V] (s : Value V Err) (v : JSVal V)
    (h : s.valueForwarder = none) :
    s.set v = (s.notifyOfExternalUpdate v, Except.ok ()) := by
  obtain ⟨lv, f, r, obs, t⟩ := s
  cases f with
  | none => rfl
  | some fwd => simp at h

theorem set_some_ok [DecidableEq V] (s : Value V Err) (v : JSVal V)
    (fwd : JSVal V → Except Err Unit) (h : s.valueForwarder = some fwd)
    (u : Unit) (hok : fwd v = Except.ok u) :
    s.set v =
      (Value.notifyOfExternalUpdate
        { s with trace := s.trace ++ [Event.forwarderCalled v] } v,
       Except.ok ()) := by
  obtain ⟨lv, f, r, obs, t⟩ := s
  cases f with
  | none => simp at h
  | some g =>
      have hg : g = fwd := by
        injection h
      subst hg
      simp [Value.set, hok]

theorem set_some_error [DecidableEq V] (s : Value V Err) (v : JSVal V)
    (fwd : JSVal V → Except Err Unit) (h : s.valueForwarder = some fwd)
    (e : Err) (herr : fwd v = Except.error e) :
    s.set v =
      ({ s with trace := s.trace ++ [Event.forwarderCalled v] },
       Except.error e) := by
  obtain ⟨lv, f, r, obs, t⟩ := s
  cases f with
  | none => simp at h
  | some g =>
      have hg : g = fwd := by
        injection h
      subst hg
      simp [Value.set, herr]

theorem get_none [DecidableEq V] (s : Value V Err)
    (h : s.valueRequestor = none) :
    s.get = (s, Except.ok s.lastValue) := by
  obtain ⟨lv, f, r, obs, t⟩ := s
  cases r with
  | none => rfl
  | some req => simp at h

theorem get_some_ok [DecidableEq V] (s : Value V Err)
    (req : Unit → Except Err (JSVal V)) (h : s.valueRequestor = some req)
    (y : JSVal V) (hok : req () = Except.ok y) :
    s.get =
      (Value.notifyOfExternalUpdate
        { s with trace := s.trace ++ [Event.requestorCalled] } y,
       Except.ok y) := by
  obtain ⟨lv, f, r, obs, t⟩ := s
  cases r with
  | none => simp at h
  | some g =>
      have hg : g = req := by
        injection h
      subst hg
      simp [Value.get, hok]

theorem get_some_error [DecidableEq V] (s : Value V Err)
    (req : Unit → Except Err (JSVal V)) (h : s.valueRequestor = some req)
    (e : Err) (herr : req () = Except.error e) :
    s.get =
      ({ s with trace := s.trace ++ [Event.requestorCalled] },
       Except.error e) := by
  obtain ⟨lv, f, r, obs, t⟩ := s
  cases r with
  | none => simp at h
  | some g =>
      have hg : g = req := by
        injection h
      subst hg
      simp [Value.get, herr]

theorem trace_append_notifications (s : Value V Err) (t' : List (Event V)) :
    Value.notifications { s with trace := s.trace ++ t' } =
      s.notifications ++ t'.filterMap Event.notifiedOf := by
  simp [Value.notifications]

theorem trace_append_emissions (s : Value V Err) (t' : List (Event V)) :
    Value.emissions { s with trace := s.trace ++ t' } =
      s.emissions ++ t'.filterMap Event.emittedOf := by
  simp [Value.emissions]

/-- C1: the update procedure changes state and emits iff the candidate value
is non-empty (neither undefined nor null) and differs from the stored
lastValue under equality; in that case lastValue becomes the candidate and
exactly one update event is emitted, delivered to all currently registered
observers in registration order; otherwise the state is entirely unchanged
and nothing is emitted. -/
theorem c1_update_procedure [DecidableEq V] (s : Value V Err) (v : JSVal V) :
    (freshFor v s →
      (s.notifyOfExternalUpdate v).lastValue = v ∧
      s.notifyOfExternalUpdate v ≠ s ∧
      (s.notifyOfExternalUpdate v).observers = s.observers ∧
      (s.notifyOfExternalUpdate v).trace = s.trace
        ++ [Event.storeAssigned v, Event.updateEmitted v]
        ++ s.observers.map (fun o => Event.notified o v) ∧
      (s.notifyOfExternalUpdate v).emissions = s.emissions ++ [v] ∧
      (s.notifyOfExternalUpdate v).notifications =
        s.notifications ++ s.observers.map (fun o => (o, v)))
    ∧ (¬ freshFor v s → s.notifyOfExternalUpdate v = s) := by
  constructor
  · intro h
    refine ⟨?_, ?_, ?_, ?_, ?_, ?_⟩
    · rw [notify_lastValue, if_pos h]
    · intro hEq
      have hlv := congrArg Value.lastValue hEq
      rw [notify_lastValue, if_pos h] at hlv
      exact h.2.2 hlv
    · exact notify_observers s v
    · rw [notify_fresh s v h]
    · rw [notify_emissions, if_pos h]
    · rw [notify_notifications, if_pos h]
  · exact notify_stale s v

/-- Witness for C1 at a concrete state: initial value 1, observers 0 and 7,
candidate value 2. -/
theorem c1_update_procedure_witness :
    (Value.notifyOfExternalUpdate
        (⟨JSVal.val 1, none, none, [0, 7], []⟩ : Value Nat Nat)
        (JSVal.val 2)).lastValue = JSVal.val 2 ∧
    (Value.notifyOfExternalUpdate
        (⟨JSVal.val 1, none, none, [0, 7], []⟩ : Value Nat Nat)
        (JSVal.val 2)).notifications
      = [(0, JSVal.val 2), (7, JSVal.val 2)] := by
  have h := (c1_update_procedure
    (⟨JSVal.val 1, none, none, [0, 7], []⟩ : Value Nat Nat) (JSVal.val 2)).1
    (by decide)
  exact ⟨h.1, by rw [h.2.2.2.2.2]; decide⟩

/-- C2: set fails iff a forwarder is configured and it raises (with the same
error); with no forwarder set always succeeds; and on failure lastValue, the
observer list, the delivered notifications and the emitted events are all
unchanged. -/
theorem c2_set_fails_iff_forwarder [DecidableEq V] (s : Value V Err)
    (v : JSVal V) :
    (s.valueForwarder = none → (s.set v).2 = Except.ok ())
    ∧ (∀ fwd, s.valueForwarder = some fwd → (s.set v).2 = fwd v)
    ∧ (∀ e, (s.set v).2 = Except.error e →
        (s.set v).1.lastValue = s.lastValue ∧
        (s.set v).1.observers = s.observers ∧
        (s.set v).1.notifications = s.notifications ∧
        (s.set v).1.emissions = s.emissions) := by
  refine ⟨?_, ?_, ?_⟩
  · intro h
    rw [set_none s v h]
  · intro fwd h
    cases hfv : fwd v with
    | ok u =>
        cases u
        rw [set_some_ok s v fwd h () hfv]
    | error e =>
        rw [set_some_error s v fwd h e hfv]
  · intro e he
    cases hf : s.valueForwarder with
    | none =>
        rw [set_none s v hf] at he
        exact absurd he (by simp)
    | some fwd =>
        cases hfv : fwd v with
        | ok u =>
            rw [set_some_ok s v fwd hf u hfv] at he
            exact absurd he (by simp)
        | error e2 =>
            rw [set_some_error s v fwd hf e2 hfv]
            refine ⟨rfl, rfl, ?_, ?_⟩
            · rw [trace_append_notifications]
              simp [Event.notifiedOf]
            · rw [trace_append_emissions]
              simp [Event.emittedOf]

/-- Witness for C2 at a concrete state whose forwarder always fails with
error 9: the call fails and the stored value and event lists are unchanged. -/
theorem c2_set_fails_iff_forwarder_witness :
    ((Value.set
        (⟨JSVal.val 1, some (fun _ => Except.error 9), none, [0], []⟩ :
          Value Nat Nat) (JSVal.val 2)).2 = Except.error 9) ∧
    ((Value.set
        (⟨JSVal.val 1, some (fun _ => Except.error 9), none, [0], []⟩ :
          Value Nat Nat) (JSVal.val 2)).1.lastValue = JSVal.val 1) := by
  have h := c2_set_fails_iff_forwarder
    (⟨JSVal.val 1, some (fun _ => Except.error 9), none, [0], []⟩ :
      Value Nat Nat) (JSVal.val 2)
  have h2 := h.2.1 (fun _ => Except.error 9) rfl
  exact ⟨h2, by rw [(h.2.2 9 h2).1]⟩

/-- C4: with no forwarder, calling set twice with the same value emits exactly
one update event in total, on the first call, provided the value is non-empty
and differs from the prior lastValue (otherwise no event at all); the second
call returns the state of the first call entirely unchanged. -/
theorem c4_dedup_idempotent [DecidableEq V] (s : Value V Err) (x : JSVal V)
    (h : s.valueForwarder = none) :
    ((s.set x).1.set x) = ((s.set x).1, Except.ok ())
    ∧ (freshFor x s →
        (s.set x).1.lastValue = x ∧
        (s.set x).1.emissions = s.emissions ++ [x])
    ∧ (¬ freshFor x s → (s.set x).1 = s) := by
  have hset : s.set x = (s.notifyOfExternalUpdate x, Except.ok ()) :=
    set_none s x h
  refine ⟨?_, ?_, ?_⟩
  · rw [hset]
    have hf1 : (s.notifyOfExternalUpdate x).valueForwarder = none := by
      rw [notify_valueForwarder, h]
    rw [set_none _ x hf1]
    by_cases hc : freshFor x s
    · have hlx : (s.notifyOfExternalUpdate x).lastValue = x := by
        rw [notify_lastValue, if_pos hc]
      have hstale : ¬ freshFor x (s.notifyOfExternalUpdate x) := by
        intro hfr
        exact hfr.2.2 hlx.symm
      rw [notify_stale _ x hstale]
    · rw [notify_stale s x hc]
      rw [notify_stale s x hc]
  · intro hc
    rw [hset]
    constructor
    · rw [notify_lastValue, if_pos hc]
    · rw [notify_emissions, if_pos hc]
  · intro hc
    rw [hset]
    exact notify_stale s x hc

/-- Witness for C4: from stored value 1, two calls of set 2 leave the value
at 2 with a single emission, and the second call changes nothing. -/
theorem c4_dedup_idempotent_witness :
    (((Value.set (⟨JSVal.val 1, none, none, [0], []⟩ : Value Nat Nat)
        (JSVal.val 2)).1.set (JSVal.val 2))
      = ((Value.set (⟨JSVal.val 1, none, none, [0], []⟩ : Value Nat Nat)
        (JSVal.val 2)).1, Except.ok ())) ∧
    (Value.set (⟨JSVal.val 1, none, none, [0], []⟩ : Value Nat Nat)
        (JSVal.val 2)).1.emissions = [JSVal.val 2] := by
  have h := c4_dedup_idempotent
    (⟨JSVal.val 1, none, none, [0], []⟩ : Value Nat Nat) (JSVal.val 2) rfl
  refine ⟨h.1, ?_⟩
  have h2 := (h.2.1 (by decide)).2
  rw [h2]
  rfl

/-- C5: with no requestor, get is a pure read: it resolves with lastValue and
returns the state completely unchanged (same lastValue, callbacks, observers
and trace), so no event is emitted. -/
theorem c5_get_pure_read [DecidableEq V] (s : Value V Err)
    (h : s.valueRequestor = none) :
    s.get = (s, Except.ok s.lastValue) :=
  get_none s h

/-- Witness for C5 at a concrete state with no requestor. -/
theorem c5_get_pure_read_witness :
    Value.get (⟨JSVal.val 3, none, none, [2], []⟩ : Value Nat Nat)
      = (⟨JSVal.val 3, none, none, [2], []⟩, Except.ok (JSVal.val 3)) :=
  c5_get_pure_read (⟨JSVal.val 3, none, none, [2], []⟩ : Value Nat Nat) rfl

/-- C7: get fails iff a requestor is configured and it raises (the surfaced
result is exactly the requestor's result); with no requestor get always
succeeds; and on failure lastValue, the observer list, the delivered
notifications and the emitted events are all unchanged. -/
theorem c7_get_fails_iff_requestor [DecidableEq V] (s : Value V Err) :
    (s.valueRequestor = none → (s.get).2 = Except.ok s.lastValue)
    ∧ (∀ req, s.valueRequestor = some req → (s.get).2 = req ())
    ∧ (∀ e, (s.get).2 = Except.error e →
        (s.get).1.lastValue = s.lastValue ∧
        (s.get).1.observers = s.observers ∧
        (s.get).1.notifications = s.notifications ∧
        (s.get).1.emissions = s.emissions) := by
  refine ⟨?_, ?_, ?_⟩
  · intro h
    rw [get_none s h]
  · intro req h
    cases hr : req () with
    | ok y =>
        rw [get_some_ok s req h y hr]
    | error e =>
        rw [get_some_error s req h e hr]
  · intro e he
    cases hq : s.valueRequestor with
    | none =>
        rw [get_none s hq] at he
        exact absurd he (by simp)
    | some req =>
        cases hr : req () with
        | ok y =>
            rw [get_some_ok s req hq y hr] at he
            exact absurd he (by simp)
        | error e2 =>
            rw [get_some_error s req hq e2 hr]
            refine ⟨rfl, rfl, ?_, ?_⟩
            · rw [trace_append_notifications]
              simp [Event.notifiedOf]
            · rw [trace_append_emissions]
              simp [Event.emittedOf]

/-- Witness for C7 at a concrete state whose requestor always fails with
error 4: the call fails and the stored value is unchanged. -/
theorem c7_get_fails_iff_requestor_witness :
    ((Value.get
        (⟨JSVal.val 1, none, some (fun _ => Except.error 4), [0], []⟩ :
          Value Nat Nat)).2 = Except.error 4) ∧
    ((Value.get
        (⟨JSVal.val 1, none, some (fun _ => Except.error 4), [0], []⟩ :
          Value Nat Nat)).1.lastValue = JSVal.val 1) := by
  have h := c7_get_fails_iff_requestor
    (⟨JSVal.val 1, none, some (fun _ => Except.error 4), [0], []⟩ :
      Value Nat Nat)
  have h2 := h.2.1 (fun _ => Except.error 4) rfl
  exact ⟨h2, by rw [(h.2.2 4 h2).1]⟩

/-- C3 as amended: with a requestor whose result is a non-empty value y
different from lastValue, get resolves with y, updates lastValue to y and
emits exactly one update event carrying y to all registered observers. -/
theorem c3_read_reflects_pull [DecidableEq V] (s : Value V Err)
    (req : Unit → Except Err (JSVal V)) (hreq : s.valueRequestor = some req)
    (y : JSVal V) (hok : req () = Except.ok y)
    (h1 : y ≠ JSVal.undef) (h2 : y ≠ JSVal.nul) (h3 : y ≠ s.lastValue) :
    (s.get).2 = Except.ok y ∧
    (s.get).1.lastValue = y ∧
    (s.get).1.emissions = s.emissions ++ [y] ∧
    (s.get).1.notifications =
      s.notifications ++ s.observers.map (fun o => (o, y)) := by
  rw [get_some_ok s req hreq y hok]
  have hfr : freshFor y
      ({ s with trace := s.trace ++ [Event.requestorCalled] } : Value V Err) :=
    ⟨h1, h2, h3⟩
  refine ⟨rfl, ?_, ?_, ?_⟩
  · rw [notify_lastValue, if_pos hfr]
  · rw [notify_emissions, if_pos hfr, trace_append_emissions]
    simp [Event.emittedOf]
  · rw [notify_notifications, if_pos hfr, trace_append_notifications]
    simp [Event.notifiedOf]

/-- Witness for the amended C3: stored value 0, requestor returning 1 with
one registered observer. -/
theorem c3_read_reflects_pull_witness :
    ((Value.get
        (⟨JSVal.val 0, none, some (fun _ => Except.ok (JSVal.val 1)), [0], []⟩ :
          Value Nat Nat)).2 = Except.ok (JSVal.val 1)) ∧
    ((Value.get
        (⟨JSVal.val 0, none, some (fun _ => Except.ok (JSVal.val 1)), [0], []⟩ :
          Value Nat Nat)).1.lastValue = JSVal.val 1) := by
  have h := c3_read_reflects_pull
    (⟨JSVal.val 0, none, some (fun _ => Except.ok (JSVal.val 1)), [0], []⟩ :
      Value Nat Nat)
    (fun _ => Except.ok (JSVal.val 1)) rfl (JSVal.val 1) rfl
    (by decide) (by decide) (by decide)
  exact ⟨h.1, h.2.1⟩

/-- C3 counterexample: the requestor returns null, which differs from the
stored value 0, yet get resolves with null while lastValue stays 0 and no
update event is emitted — refuting the unconditional claim that lastValue
becomes the returned value and one event carrying it is emitted. -/
theorem c3_read_reflects_pull_counterexample :
    ((Value.get
        (⟨JSVal.val 0, none, some (fun _ => Except.ok JSVal.nul), [0], []⟩ :
          Value Nat Nat)).2 = Except.ok JSVal.nul) ∧
    (JSVal.nul ≠ (JSVal.val 0 : JSVal Nat)) ∧
    ((Value.get
        (⟨JSVal.val 0, none, some (fun _ => Except.ok JSVal.nul), [0], []⟩ :
          Value Nat Nat)).1.lastValue = JSVal.val 0) ∧
    ((Value.get
        (⟨JSVal.val 0, none, some (fun _ => Except.ok JSVal.nul), [0], []⟩ :
          Value Nat Nat)).1.emissions = []) := by
  refine ⟨rfl, by decide, rfl, rfl⟩

/-- C6 as amended: the value a successful get resolves with equals the stored
lastValue immediately after the call, provided either no requestor is
configured or the requestor's result is non-empty; an empty requestor result
is returned as-is while lastValue keeps its previous value. -/
theorem c6_get_returns_current [DecidableEq V] (s : Value V Err) :
    (s.valueRequestor = none →
      (s.get).2 = Except.ok ((s.get).1.lastValue))
    ∧ (∀ req y, s.valueRequestor = some req → req () = Except.ok y →
        y ≠ JSVal.undef → y ≠ JSVal.nul →
        (s.get).2 = Except.ok y ∧ (s.get).1.lastValue = y) := by
  constructor
  · intro h
    rw [get_none s h]
  · intro req y hreq hok h1 h2
    rw [get_some_ok s req hreq y hok]
    refine ⟨rfl, ?_⟩
    rw [notify_lastValue]
    by_cases h3 : y =
        ({ s with trace := s.trace ++ [Event.requestorCalled] } :
          Value V Err).lastValue
    · rw [if_neg (fun hfr => hfr.2.2 h3)]
      exact h3.symm
    · rw [if_pos ⟨h1, h2, h3⟩]

/-- Witness for the amended C6: stored value 0, requestor returning 1. -/
theorem c6_get_returns_current_witness :
    ((Value.get
        (⟨JSVal.val 0, none, some (fun _ => Except.ok (JSVal.val 1)), [], []⟩ :
          Value Nat Nat)).2 = Except.ok (JSVal.val 1)) ∧
    ((Value.get
        (⟨JSVal.val 0, none, some (fun _ => Except.ok (JSVal.val 1)), [], []⟩ :
          Value Nat Nat)).1.lastValue = JSVal.val 1) :=
  (c6_get_returns_current
    (⟨JSVal.val 0, none, some (fun _ => Except.ok (JSVal.val 1)), [], []⟩ :
      Value Nat Nat)).2
    (fun _ => Except.ok (JSVal.val 1)) (JSVal.val 1) rfl rfl
    (by decide) (by decide)

/-- C6 counterexample: with stored value 5 and a requestor returning null,
get succeeds and resolves with null, but the stored lastValue immediately
after the call is still 5 — a successful get whose result disagrees with the
stored value. -/
theorem c6_get_returns_current_counterexample :
    ((Value.get
        (⟨JSVal.val 5, none, some (fun _ => Except.ok JSVal.nul), [], []⟩ :
          Value Nat Nat)).2 = Except.ok JSVal.nul) ∧
    ((Value.get
        (⟨JSVal.val 5, none, some (fun _ => Except.ok JSVal.nul), [], []⟩ :
          Value Nat Nat)).1.lastValue = JSVal.val 5) ∧
    (JSVal.nul ≠ (JSVal.val 5 : JSVal Nat)) := by
  refine ⟨rfl, rfl, by decide⟩

/-- C8: with a forwarder configured and a candidate z different from
lastValue, the forwarder invocation enters the trace strictly before any
store assignment or emission; on forwarder success with a non-empty z the
store assignment and emission follow the forwarder call and lastValue
becomes z; on forwarder failure the trace gains only the forwarder call and
lastValue and the emitted events are unchanged, so the commit is performed
only after the forwarder resolves successfully. -/
theorem c8_forward_then_commit [DecidableEq V] (s : Value V Err)
    (z : JSVal V) (fwd : JSVal V → Except Err Unit)
    (hf : s.valueForwarder = some fwd) (hz : z ≠ s.lastValue) :
    (∀ u, fwd z = Except.ok u → z ≠ JSVal.undef → z ≠ JSVal.nul →
      (s.set z).1.lastValue = z ∧
      (s.set z).1.trace = s.trace
        ++ [Event.forwarderCalled z, Event.storeAssigned z,
            Event.updateEmitted z]
        ++ s.observers.map (fun o => Event.notified o z))
    ∧ (∀ e, fwd z = Except.error e →
        (s.set z).2 = Except.error e ∧
        (s.set z).1.lastValue = s.lastValue ∧
        (s.set z).1.trace = s.trace ++ [Event.forwarderCalled z] ∧
        (s.set z).1.emissions = s.emissions) := by
  constructor
  · intro u hu h1 h2
    rw [set_some_ok s z fwd hf u hu]
    have hfr : freshFor z
        ({ s with trace := s.trace ++ [Event.forwarderCalled z] } :
          Value V Err) := ⟨h1, h2, hz⟩
    constructor
    · rw [notify_lastValue, if_pos hfr]
    · rw [notify_fresh _ z hfr]
      simp
  · intro e he
    rw [set_some_error s z fwd hf e he]
    refine ⟨rfl, rfl, rfl, ?_⟩
    rw [trace_append_emissions]
    simp [Event.emittedOf]

/-- Witness for C8: stored value 1, a forwarder that succeeds, set 2: the
forwarder call precedes the store assignment and emission in the trace. -/
theorem c8_forward_then_commit_witness :
    ((Value.set
        (⟨JSVal.val 1, some (fun _ => Except.ok ()), none, [0], []⟩ :
          Value Nat Nat) (JSVal.val 2)).1.lastValue = JSVal.val 2) ∧
    ((Value.set
        (⟨JSVal.val 1, some (fun _ => Except.ok ()), none, [0], []⟩ :
          Value Nat Nat) (JSVal.val 2)).1.trace
      = [Event.forwarderCalled (JSVal.val 2),
         Event.storeAssigned (JSVal.val 2),
         Event.updateEmitted (JSVal.val 2),
         Event.notified 0 (JSVal.val 2)]) := by
  have h := (c8_forward_then_commit
    (⟨JSVal.val 1, some (fun _ => Except.ok ()), none, [0], []⟩ :
      Value Nat Nat)
    (JSVal.val 2) (fun _ => Except.ok ()) rfl (by decide)).1
    () rfl (by decide) (by decide)
  exact ⟨h.1, by rw [h.2]; rfl⟩

/-- The event loop is single threaded: a set call suspended at its forwarder
await resumes by running its `then` continuation, notifyOfExternalUpdate,
atomically.  Overlapping set calls therefore apply their update procedures
one after another, in the order the forwarder promises resolve;
`applyUpdates` applies the update procedure to the pending values in that
resolution order. -/
def Value.applyUpdates [DecidableEq V] (s : Value V Err)
    (vs : List (JSVal V)) : Value V Err :=
  vs.foldl Value.notifyOfExternalUpdate s

/-- C9 as amended: sequential non-overlapping set calls (no forwarder) apply
the second update to the completed result of the first, i.e. compose the
update procedures in call order; for overlapping calls whose updates are
applied in resolution order, the last-applied value wins on lastValue
whenever it is non-empty, and each value is individually emitted if and only
if it is non-empty and differs from the stored value at the time it is
applied. -/
theorem c9_ordering [DecidableEq V] (s : Value V Err) :
    (∀ v1 v2, s.valueForwarder = none →
      ((s.set v1).1.set v2).1 = s.applyUpdates [v1, v2])
    ∧ (∀ u1 u2, u2 ≠ JSVal.undef → u2 ≠ JSVal.nul →
        (s.applyUpdates [u1, u2]).lastValue = u2)
    ∧ (∀ u1 u2,
        (s.applyUpdates [u1, u2]).emissions = s.emissions
          ++ (if freshFor u1 s then [u1] else [])
          ++ (if freshFor u2 (s.notifyOfExternalUpdate u1) then [u2]
              else [])) := by
  refine ⟨?_, ?_, ?_⟩
  · intro v1 v2 h
    rw [set_none s v1 h]
    have hf1 : (s.notifyOfExternalUpdate v1).valueForwarder = none := by
      rw [notify_valueForwarder, h]
    rw [set_none _ v2 hf1]
    rfl
  · intro u1 u2 h1 h2
    show (Value.notifyOfExternalUpdate
      (s.notifyOfExternalUpdate u1) u2).lastValue = u2
    rw [notify_lastValue]
    by_cases h3 : u2 = (s.notifyOfExternalUpdate u1).lastValue
    · rw [if_neg (fun hfr => hfr.2.2 h3)]
      exact h3.symm
    · rw [if_pos ⟨h1, h2, h3⟩]
  · intro u1 u2
    show (Value.notifyOfExternalUpdate
        (s.notifyOfExternalUpdate u1) u2).emissions = _
    rw [notify_emissions, notify_emissions]
    by_cases hc1 : freshFor u1 s <;> by_cases hc2 :
        freshFor u2 (s.notifyOfExternalUpdate u1) <;>
      simp [hc1, hc2]

/-- Witness for the amended C9: from stored value 1 with one observer,
updates 2 then 3 applied in resolution order leave lastValue 3 and emit both
values in order. -/
theorem c9_ordering_witness :
    ((Value.applyUpdates (⟨JSVal.val 1, none, none, [0], []⟩ : Value Nat Nat)
        [JSVal.val 2, JSVal.val 3]).lastValue = JSVal.val 3) ∧
    ((Value.applyUpdates (⟨JSVal.val 1, none, none, [0], []⟩ : Value Nat Nat)
        [JSVal.val 2, JSVal.val 3]).emissions
      = [JSVal.val 2, JSVal.val 3]) := by
  have h := c9_ordering (⟨JSVal.val 1, none, none, [0], []⟩ : Value Nat Nat)
  refine ⟨h.2.1 (JSVal.val 2) (JSVal.val 3) (by decide) (by decide), ?_⟩
  rw [h.2.2 (JSVal.val 2) (JSVal.val 3)]
  rfl

/-- C9 counterexample: from stored value 1, overlapping updates resolving as
2 then null: null differs from the then-current stored value 2, yet the
final lastValue is 2 (the last update did not win) and null is never emitted
— refuting the claim that each change is emitted whenever it differs from
the prior value at application time, with last-update-wins on lastValue. -/
theorem c9_ordering_counterexample :
    (JSVal.nul ≠ (Value.applyUpdates
        (⟨JSVal.val 1, none, none, [0], []⟩ : Value Nat Nat)
        [JSVal.val 2]).lastValue) ∧
    ((Value.applyUpdates (⟨JSVal.val 1, none, none, [0], []⟩ : Value Nat Nat)
        [JSVal.val 2, JSVal.nul]).lastValue = JSVal.val 2) ∧
    ((Value.applyUpdates (⟨JSVal.val 1, none, none, [0], []⟩ : Value Nat Nat)
        [JSVal.val 2, JSVal.nul]).emissions = [JSVal.val 2]) := by
  refine ⟨by decide, rfl, rfl⟩

/-- An externally triggered operation on a Value: a set call (whose forwarder
outcome is whatever the stored callback yields), a get call (likewise for the
requestor), or a direct notifyOfExternalUpdate. -/
inductive Op (V : Type) where
  | opSet : JSVal V → Op V
  | opGet : Op V
  | opNotify : JSVal V → Op V

/-- Run one operation and keep the resulting state. -/
def Value.runOp [DecidableEq V] (s : Value V Err) : Op V → Value V Err
  | Op.opSet v => (s.set v).1
  | Op.opGet => (s.get).1
  | Op.opNotify v => s.notifyOfExternalUpdate v

/-- Run a sequence of operations from left to right. -/
def Value.runOps [DecidableEq V] (s : Value V Err) (ops : List (Op V)) :
    Value V Err :=
  ops.foldl Value.runOp s

/-- The stored value is a proper value, neither undefined nor null. -/
def nonEmptyLast (s : Value V Err) : Prop :=
  s.lastValue ≠ JSVal.undef ∧ s.lastValue ≠ JSVal.nul

theorem notify_nonEmpty [DecidableEq V] (s : Value V Err) (v : JSVal V)
    (h : nonEmptyLast s) : nonEmptyLast (s.notifyOfExternalUpdate v) := by
  unfold nonEmptyLast
  rw [notify_lastValue]
  by_cases hc : freshFor v s
  · rw [if_pos hc]
    exact ⟨hc.1, hc.2.1⟩
  · rw [if_neg hc]
    exact h

theorem set_nonEmpty [DecidableEq V] (s : Value V Err) (v : JSVal V)
    (h : nonEmptyLast s) : nonEmptyLast ((s.set v).1) := by
  cases hf : s.valueForwarder with
  | none =>
      rw [set_none s v hf]
      exact notify_nonEmpty s v h
  | some fwd =>
      cases hfv : fwd v with
      | ok u =>
          rw [set_some_ok s v fwd hf u hfv]
          exact notify_nonEmpty _ v h
      | error e =>
          rw [set_some_error s v fwd hf e hfv]
          exact h

theorem get_nonEmpty [DecidableEq V] (s : Value V Err)
    (h : nonEmptyLast s) : nonEmptyLast ((s.get).1) := by
  cases hq : s.valueRequestor with
  | none =>
      rw [get_none s hq]
      exact h
  | some req =>
      cases hr : req () with
      | ok y =>
          rw [get_some_ok s req hq y hr]
          exact notify_nonEmpty _ y h
      | error e =>
          rw [get_some_error s req hq e hr]
          exact h

theorem runOps_nonEmpty [DecidableEq V] (s : Value V Err) (ops : List (Op V))
    (h : nonEmptyLast s) : nonEmptyLast (s.runOps ops) := by
  induction ops generalizing s with
  | nil => exact h
  | cons op rest ih =>
      show nonEmptyLast (Value.runOps (s.runOp op) rest)
      apply ih
      cases op with
      | opSet v => exact set_nonEmpty s v h
      | opGet => exact get_nonEmpty s h
      | opNotify v => exact notify_nonEmpty s v h

/-- C10: a Value constructed with a non-empty initial value never stores an
empty value: after any sequence of set, get and notifyOfExternalUpdate
operations, with whatever forwarder and requestor callbacks were supplied at
construction, lastValue is neither undefined nor null. -/
theorem c10_nonempty_invariant [DecidableEq V] (initialValue : JSVal V)
    (fwd : Option (JSVal V → Except Err Unit))
    (req : Option (Unit → Except Err (JSVal V))) (ops : List (Op V))
    (h1 : initialValue ≠ JSVal.undef) (h2 : initialValue ≠ JSVal.nul) :
    ((Value.construct initialValue fwd req).runOps ops).lastValue
        ≠ JSVal.undef ∧
    ((Value.construct initialValue fwd req).runOps ops).lastValue
        ≠ JSVal.nul :=
  runOps_nonEmpty (Value.construct initialValue fwd req) ops ⟨h1, h2⟩

/-- Witness for C10: initial value 1, a requestor that reports null, and a
sequence that sets 2, pulls via get, and pushes null directly: the stored
value stays a proper value. -/
theorem c10_nonempty_invariant_witness :
    ((Value.construct (JSVal.val 1) (none : Option (JSVal Nat → Except Nat Unit))
        (some (fun _ => Except.ok JSVal.nul))).runOps
      [Op.opSet (JSVal.val 2), Op.opGet, Op.opNotify JSVal.nul]).lastValue
        ≠ JSVal.undef ∧
    ((Value.construct (JSVal.val 1) (none : Option (JSVal Nat → Except Nat Unit))
        (some (fun _ => Except.ok JSVal.nul))).runOps
      [Op.opSet (JSVal.val 2), Op.opGet, Op.opNotify JSVal.nul]).lastValue
        ≠ JSVal.nul :=
  c10_nonempty_invariant (JSVal.val 1) none
    (some (fun _ => Except.ok JSVal.nul))
    [Op.opSet (JSVal.val 2), Op.opGet, Op.opNotify JSVal.nul]
    (by decide) (by decide)

end WebThing
